import Mathlib

/-!
Verification development for the real-time interaction plane of the
Live-Streaming-Platform-Architecture repository: the stream-management
service (ingest callbacks, stream lifecycle, reaper) and the chat
service (rooms, membership, message history, WebSocket fan-out hub).

The Go code is shallowly embedded: DynamoDB tables become lists of
records keyed by the item's primary key (PutItem replaces the first
record with the same key, or appends), the Redis session / sorted-set /
set structures become explicit fields of a state record, wall-clock
times are `Int` Unix seconds, and the random identifier generators
(`crypto/rand` hex in `generateStreamID`, `uuid.New()` for messages)
are modelled by a fresh-identifier counter carried in the state: each
call yields an identifier distinct from all previously generated ones,
which is the property the random generators provide.  Redis, DynamoDB
and Kinesis transport failures are environmental; the pure model is the
failure-free execution, so code paths reachable only on a store error
are not exercised.
-/

namespace LSP

/-- Association-list lookup: the first entry with the given key
(models a DynamoDB `GetItem` / Redis key lookup). -/
def alookup [DecidableEq κ] : List (κ × α) → κ → Option α
  | [], _ => none
  | (k', v) :: rest, k => if k' = k then some v else alookup rest k

/-- Association-list write: replace the first entry with the given key,
or append (models DynamoDB `PutItem` / Redis `SET` keyed writes). -/
def aput [DecidableEq κ] : List (κ × α) → κ → α → List (κ × α)
  | [], k, v => [(k, v)]
  | (k', v') :: rest, k, v =>
      if k' = k then (k, v) :: rest else (k', v') :: aput rest k v

end LSP

namespace StreamMgmt

/-- Stream lifecycle status
(`services/stream-management-service/internal/models/stream.go`). -/
inductive StreamStatus
  | pending
  | live
  | ended
  | error
deriving DecidableEq, Repr

/-- A stream record as persisted in the stream DynamoDB table
(`internal/models/stream.go`).  Identifiers generated by
`generateStreamID` are modelled as `Nat` drawn from a fresh counter;
times are Unix seconds. -/
structure Stream where
  id : Nat
  userId : Int
  streamKey : String
  title : String
  status : StreamStatus
  startedAt : Option Int
  endedAt : Option Int
  duration : Int
  viewerCount : Int
  recordingURL : String
  metadata : List (String × String)
  createdAt : Int
  updatedAt : Int
deriving DecidableEq, Repr

/-- The Redis ingest session stored by `AuthenticateStream` and read by
`StreamStarted` / `StreamEnded` (`internal/service/stream_service.go`,
`StoreStreamSession` / `GetStreamSession`).  JSON round-tripping keeps
`user_id` numeric, so the type assertion in the handlers succeeds. -/
structure Session where
  userId : Int
  username : String
  streamKey : String
  clientIp : String
  appName : String
  startedAt : Int
  streamId : Option Nat
  streamStartedAt : Option Int
deriving DecidableEq, Repr

/-- A lifecycle event published to Kinesis (`PublishEvent`), restricted
to the fields the claims mention. -/
structure Event where
  eventType : String
  streamId : Option Nat
  userId : Option Int
  duration : Option Int
  reason : Option String
  timestamp : Int
deriving DecidableEq, Repr

/-- State of the stream-management service: the DynamoDB stream table,
the Redis session cache, the fresh-identifier counter modelling
`generateStreamID`, and the Kinesis event log. -/
structure SMState where
  streams : List Stream
  sessions : List (String × Session)
  nextId : Nat
  events : List Event
deriving Repr

/-- DynamoDB `GetItem` on the stream table keyed by `id`
(`internal/repository/dynamodb.go`, `GetStreamByID`). -/
def getStreamByID : List Stream → Nat → Option Stream
  | [], _ => none
  | s :: rest, i => if s.id = i then some s else getStreamByID rest i

/-- DynamoDB scan with `stream_key` filter, first match
(`GetStreamByStreamKey`). -/
def getStreamByStreamKey : List Stream → String → Option Stream
  | [], _ => none
  | s :: rest, k =>
      if s.streamKey = k then some s else getStreamByStreamKey rest k

/-- DynamoDB scan with `status` filter (`GetStreamsByStatus`). -/
def getStreamsByStatus (streams : List Stream) (st : StreamStatus) :
    List Stream :=
  streams.filter (fun s => decide (s.status = st))

/-- DynamoDB `PutItem` on the stream table: the table is keyed by `id`,
so a put replaces the record with that id or inserts a new one
(`CreateStream` / `UpdateStream` in `internal/repository/dynamodb.go`). -/
def putStream : List Stream → Stream → List Stream
  | [], t => [t]
  | s :: rest, t => if s.id = t.id then t :: rest else s :: putStream rest t

/-- `CreateStream` (`internal/service/stream_service.go:36-51`): assign
a freshly generated id and `PutItem` the record; the Redis write-through
cache is modelled as coherent with the table. -/
def createStream (st : SMState) (s : Stream) : SMState × Nat :=
  let sid := st.nextId
  let s' := { s with id := sid }
  ({ st with streams := putStream st.streams s', nextId := st.nextId + 1 },
    sid)

/-- `strings.TrimSpace` on the character list (structural recursion, so
that concrete instances evaluate by kernel reduction). -/
def trimChars (l : List Char) : List Char :=
  ((l.dropWhile Char.isWhitespace).reverse.dropWhile Char.isWhitespace).reverse

/-- The last `/`-separated segment of a character list
(`strings.Split(k, "/")` followed by taking the last part; equal to the
input when it has no `/`). -/
def lastSegment : List Char → List Char → List Char
  | [], acc => acc.reverse
  | c :: rest, acc =>
      if c = '/' then lastSegment rest [] else lastSegment rest (c :: acc)

/-- `extractStreamKey` (`internal/service/rtmp_handler.go:1104-1122`):
trim whitespace, strip one leading `/` (`strings.TrimPrefix`), and take
the last `/`-separated segment. -/
def extractStreamKey (name : String) : String :=
  let cs := trimChars name.data
  let cs := match cs with
    | '/' :: rest => rest
    | cs => cs
  ⟨lastSegment cs []⟩

/-- The stream record built by the `StreamStarted` handler before
`CreateStream` assigns its id
(`internal/service/stream_service.go:400-417`). -/
def startedStreamRecord (sess : Session) (key ip app : String) (now : Int) :
    Stream :=
  { id := 0
    userId := sess.userId
    streamKey := key
    title := "Live Stream - " ++ toString now
    status := .live
    startedAt := some now
    endedAt := none
    duration := 0
    viewerCount := 0
    recordingURL := ""
    metadata := [("client_ip", ip), ("app_name", app),
                 ("session_started", toString now), ("rtmp_app", app)]
    createdAt := now
    updatedAt := now }

/-- The `stream_started` event published by the handler. -/
def startedEvent (sid : Nat) (userId : Int) (now : Int) : Event :=
  { eventType := "stream_started", streamId := some sid,
    userId := some userId, duration := none, reason := none,
    timestamp := now }

/-- `StreamStarted` ingest callback
(`internal/service/stream_service.go:370-455`): require a session for
the extracted key, build a fresh `live` stream record, `CreateStream`
it, write the new `stream_id` back into the session, and publish a
`stream_started` event.  Returns the new stream id, or `none` for the
500 response when no session exists. -/
def streamStarted (st : SMState) (name ip app : String) (now : Int) :
    SMState × Option Nat :=
  let key := extractStreamKey name
  match LSP.alookup st.sessions key with
  | none => (st, none)
  | some sess =>
      let p := createStream st (startedStreamRecord sess key ip app now)
      let sess1 := { sess with streamId := some p.2,
                               streamStartedAt := some now }
      ({ p.1 with sessions := LSP.aput p.1.sessions key sess1,
                  events := p.1.events ++ [startedEvent p.2 sess.userId now] },
        some p.2)

/-- `EndStream` (`internal/service/stream_service.go:89-132`): look the
stream up by key, set `status=ended`, `ended_at=now`, `updated_at=now`,
and set `duration` to the parsed caller value; an empty (or unparsable)
duration string — modelled as `none` — leaves the parsed value at its
zero initialisation.  Publishes a `stream_ended` event. -/
def endStream (st : SMState) (streamKey : String) (duration : Option Int)
    (now : Int) : SMState × Bool :=
  match getStreamByStreamKey st.streams streamKey with
  | none => (st, false)
  | some s =>
      let durationSec := match duration with
        | some d => d
        | none => 0
      let s1 := { s with status := .ended, endedAt := some now,
                         duration := durationSec, updatedAt := now }
      let ev : Event :=
        { eventType := "stream_ended", streamId := some s.id,
          userId := some s.userId, duration := some durationSec,
          reason := none, timestamp := now }
      ({ st with streams := putStream st.streams s1,
                 events := st.events ++ [ev] }, true)

/-- The gRPC stream-status enum (`gen/stream`). -/
inductive GrpcStreamStatus
  | streamPending
  | streamLive
  | streamEnded
  | streamError
deriving DecidableEq, Repr

/-- `grpcToModelStatus` (`internal/server/grpc.go:448-461`). -/
def grpcToModelStatus : GrpcStreamStatus → StreamStatus
  | .streamPending => .pending
  | .streamLive => .live
  | .streamEnded => .ended
  | .streamError => .error

/-- Fields of `streampb.UpdateStreamRequest` used by the handler. -/
structure UpdateStreamRequest where
  streamId : Nat
  status : GrpcStreamStatus
  viewerCount : Int
  durationSeconds : Int
deriving DecidableEq, Repr

/-- The field updates applied by the gRPC `UpdateStream` handler
(`internal/server/grpc.go:296-309`): overwrite `status` whenever the
requested status is not `STREAM_PENDING`, overwrite `viewer_count` /
`duration` when positive, and stamp `updated_at`. -/
def updatedRecord (s : Stream) (req : UpdateStreamRequest) (now : Int) :
    Stream :=
  let s := if req.status ≠ .streamPending
           then { s with status := grpcToModelStatus req.status } else s
  let s := if req.viewerCount > 0
           then { s with viewerCount := req.viewerCount } else s
  let s := if req.durationSeconds > 0
           then { s with duration := req.durationSeconds } else s
  { s with updatedAt := now }

/-- The gRPC `UpdateStream` handler (`internal/server/grpc.go:282-330`):
load the stream, apply `updatedRecord`, and `PutItem` the result back. -/
def updateStream (st : SMState) (req : UpdateStreamRequest) (now : Int) :
    SMState × Bool :=
  match getStreamByID st.streams req.streamId with
  | none => (st, false)
  | some s =>
      ({ st with streams := putStream st.streams (updatedRecord s req now) },
        true)

/-- The reaper's expiry test (`internal/service/rtmp_handler.go:458-502`,
`CleanupExpiredStreams`): started more than 12 hours ago AND not
updated within the last hour. -/
def isExpired (now : Int) (s : Stream) : Bool :=
  match s.startedAt with
  | some t => decide (now - t > 43200) && decide (s.updatedAt < now - 3600)
  | none => false

/-- The update applied to an expired live stream by the reaper:
`status=ended`, `ended_at=now`, `duration = now − started_at`,
`updated_at=now`. -/
def endExpired (now : Int) (s : Stream) : Stream :=
  { s with status := .ended, endedAt := some now,
           duration := match s.startedAt with
             | some t => now - t
             | none => 0,
           updatedAt := now }

/-- The `stream_cleanup` event published for each expired stream. -/
def cleanupEvent (now : Int) (s : Stream) : Event :=
  { eventType := "stream_cleanup", streamId := some s.id,
    userId := some s.userId, duration := none, reason := some "expired",
    timestamp := now }

/-- One cycle of `CleanupExpiredStreams`
(`internal/service/rtmp_handler.go:458-502`), run by
`cmd/server/main.go:302-313` on a 5-minute ticker: scan the `live`
streams, and for each expired one write back the ended record and
publish a `stream_cleanup` event. -/
def cleanupExpiredStreams (st : SMState) (now : Int) : SMState :=
  let live := getStreamsByStatus st.streams .live
  let expired := live.filter (isExpired now)
  { st with
      streams := expired.foldl
        (fun acc s => putStream acc (endExpired now s)) st.streams,
      events := st.events ++ expired.map (cleanupEvent now) }

/-- The User-directory client viewed abstractly: maps
`(stream_key, ip)` to `some (valid, user_id, username)` on transport
success and `none` on transport error. -/
def UserDirectory : Type := String → String → Option (Bool × Int × String)

/-- Response fields of `streampb.ValidateStreamKeyResponse` used by the
claims. -/
structure ValidateStreamKeyResponse where
  success : Bool
  isValid : Bool
  userId : Int
  username : String
deriving DecidableEq, Repr

/-- The gRPC `ValidateStreamKey` handler
(`internal/server/grpc.go:42-125`): consult the User directory when a
client is configured; otherwise fall back to accepting any key of
length at least 8 as user 123 / `fallback_user`. -/
def validateStreamKeyGRPC (userClient : Option UserDirectory)
    (streamKey ipAddress : String) : ValidateStreamKeyResponse :=
  match userClient with
  | some uc =>
      match uc streamKey ipAddress with
      | none =>
          { success := false, isValid := false, userId := 0, username := "" }
      | some r =>
          if r.1 then
            { success := true, isValid := true, userId := r.2.1,
              username := r.2.2 }
          else
            { success := false, isValid := false, userId := 0, username := "" }
  | none =>
      if streamKey.length ≥ 8 then
        { success := true, isValid := true, userId := 123,
          username := "fallback_user" }
      else
        { success := false, isValid := false, userId := 0, username := "" }

/-- `validateStreamKeyHTTP`
(`internal/service/stream_service.go:1125-1137`): development
validation, accepting any key longer than 5 characters as user 123 /
`test_user`; the User directory is not consulted. -/
def validateStreamKeyHTTP (streamKey _ipAddress : String) :
    Bool × Int × String :=
  if streamKey.length > 5 then (true, 123, "test_user") else (false, 0, "")

/-- Outcome of the `/auth` ingest callback. -/
inductive AuthResult
  | authorized (userId : Int) (username : String)
  | forbidden
deriving DecidableEq, Repr

/-- `AuthenticateStream` `/auth` handler
(`internal/service/stream_service.go:803-876`): extract the key,
validate via `validateStreamKeyHTTP`, and on success store a session in
Redis and answer 200 authorized; on an invalid key answer 403. -/
def authenticateStream (st : SMState) (name ip app : String) (now : Int) :
    SMState × AuthResult :=
  let key := extractStreamKey name
  let v := validateStreamKeyHTTP key ip
  if v.1 then
    let sess : Session :=
      { userId := v.2.1, username := v.2.2, streamKey := key, clientIp := ip,
        appName := app, startedAt := now, streamId := none,
        streamStartedAt := none }
    ({ st with sessions := LSP.aput st.sessions key sess },
      .authorized v.2.1 v.2.2)
  else (st, .forbidden)

/-- Number of stream records owned by user `u` that are in `live`
status (the quantity bounded by the spec's stream-uniqueness
invariant). -/
def liveStreamCount (streams : List Stream) (u : Int) : Nat :=
  (streams.filter
    (fun s => decide (s.userId = u) && decide (s.status = StreamStatus.live))).length

/-! Concrete states used by counterexamples and witnesses. -/

/-- A concrete ingest session. -/
def sampleSession : Session :=
  { userId := 7, username := "alice", streamKey := "abcdef12",
    clientIp := "1.2.3.4", appName := "live", startedAt := 50,
    streamId := none, streamStartedAt := none }

/-- A state holding only `sampleSession` and an empty stream table. -/
def sampleState : SMState :=
  { streams := [], sessions := [("abcdef12", sampleSession)],
    nextId := 0, events := [] }

/-- A live stream already owned by user 7. -/
def liveStream7 : Stream :=
  { id := 99, userId := 7, streamKey := "oldkey99", title := "t",
    status := .live, startedAt := some 10, endedAt := none, duration := 0,
    viewerCount := 0, recordingURL := "", metadata := [], createdAt := 10,
    updatedAt := 10 }

/-- A state where user 7 already owns a live stream and has a fresh
session for a second ingest. -/
def dupState : SMState :=
  { streams := [liveStream7],
    sessions := [("xyz12345",
      { userId := 7, username := "alice", streamKey := "xyz12345",
        clientIp := "1.2.3.4", appName := "live", startedAt := 50,
        streamId := none, streamStartedAt := none })],
    nextId := 100, events := [] }

/-- An already-ended stream record. -/
def endedStream : Stream :=
  { id := 1, userId := 7, streamKey := "k1key1", title := "t",
    status := .ended, startedAt := some 10, endedAt := some 20,
    duration := 10, viewerCount := 0, recordingURL := "", metadata := [],
    createdAt := 10, updatedAt := 20 }

/-- A state holding only `endedStream`. -/
def endedState : SMState :=
  { streams := [endedStream], sessions := [], nextId := 2, events := [] }

/-- A live stream that started at 100, for the `StreamEnded` claim. -/
def c4Stream : Stream :=
  { id := 1, userId := 7, streamKey := "k123456", title := "t",
    status := .live, startedAt := some 100, endedAt := none, duration := 0,
    viewerCount := 0, recordingURL := "", metadata := [], createdAt := 100,
    updatedAt := 100 }

/-- A state holding only `c4Stream`. -/
def c4State : SMState :=
  { streams := [c4Stream], sessions := [], nextId := 2, events := [] }

/-- An expired live stream: started 50000 s before `now = 50000`,
last updated at 0. -/
def c5Expired : Stream :=
  { id := 1, userId := 7, streamKey := "kexp001", title := "t",
    status := .live, startedAt := some 0, endedAt := none, duration := 0,
    viewerCount := 0, recordingURL := "", metadata := [], createdAt := 0,
    updatedAt := 0 }

/-- A live stream that is not expired at `now = 50000` (started
recently). -/
def c5Fresh : Stream :=
  { id := 2, userId := 8, streamKey := "kfrsh02", title := "t",
    status := .live, startedAt := some 49000, endedAt := none,
    duration := 0, viewerCount := 0, recordingURL := "", metadata := [],
    createdAt := 49000, updatedAt := 49000 }

/-- A state holding one expired and one fresh live stream. -/
def c5State : SMState :=
  { streams := [c5Expired, c5Fresh], sessions := [], nextId := 3,
    events := [] }

end StreamMgmt

namespace Chat

/-- Message type (`services/chat-service/internal/models/message.go`). -/
inductive MessageType
  | text
  | image
  | file
  | system
deriving DecidableEq, Repr

/-- A chat message; `uuid.New()` identifiers are modelled by a fresh
counter. -/
structure Message where
  id : Nat
  chatroomId : String
  userId : String
  username : String
  content : String
  type : MessageType
  createdAt : Int
  isEdited : Bool
deriving DecidableEq, Repr

/-- A chatroom record (`internal/models/message.go`). -/
structure Chatroom where
  id : String
  name : String
  description : String
  creatorId : String
  isPrivate : Bool
  memberIds : List String
  createdAt : Int
  updatedAt : Int
deriving DecidableEq, Repr

/-- State of the chat service: the DynamoDB chatroom and message
tables, the Redis per-room recent-message sorted sets and per-user room
sets, the User directory contents (user id → username, `GetUser`
succeeding exactly on listed users), and the fresh message-id
counter. -/
structure ChatState where
  chatrooms : List Chatroom
  messages : List Message
  cache : List (String × List Message)
  userRooms : List (String × List String)
  users : List (String × String)
  nextMsgId : Nat
deriving Repr

/-- DynamoDB `GetItem` on the chatroom table (`GetChatroom` in
`internal/repository/dynamodb.go`). -/
def getChatroom : List Chatroom → String → Option Chatroom
  | [], _ => none
  | r :: rest, i => if r.id = i then some r else getChatroom rest i

/-- DynamoDB keyed write on the chatroom table (`PutItem` /
`UpdateItem` keyed by `id`). -/
def putChatroom : List Chatroom → Chatroom → List Chatroom
  | [], t => [t]
  | r :: rest, t => if r.id = t.id then t :: rest else r :: putChatroom rest t

/-- Store-level `AddMemberToChatroom`
(`internal/repository/dynamodb.go`): an `UpdateItem` that
`list_append`s `[userID]` onto `member_ids` unconditionally; it fails
only when the item (or its list attribute) is missing. -/
def addMemberToChatroom (rooms : List Chatroom) (chatroomId userId : String) :
    Option (List Chatroom) :=
  match getChatroom rooms chatroomId with
  | none => none
  | some r =>
      some (putChatroom rooms { r with memberIds := r.memberIds ++ [userId] })

/-- Store-level `RemoveMemberFromChatroom`
(`internal/repository/dynamodb.go:256-293`): read the room, filter the
user out of `member_ids` (keeping the remaining order), write the list
back. -/
def removeMemberFromChatroom (rooms : List Chatroom)
    (chatroomId userId : String) : Option (List Chatroom) :=
  match getChatroom rooms chatroomId with
  | none => none
  | some r =>
      some (putChatroom rooms
        { r with memberIds := r.memberIds.filter (fun m => decide (m ≠ userId)) })

/-- `IsUserMemberOfChatroom`: read the room and test membership;
`none` models the room-not-found error. -/
def isUserMemberOfChatroom (rooms : List Chatroom)
    (chatroomId userId : String) : Option Bool :=
  match getChatroom rooms chatroomId with
  | none => none
  | some r => some (r.memberIds.contains userId)

/-- Redis `SAdd` on a modelled set-as-list. -/
def addToSet (l : List String) (x : String) : List String :=
  if l.contains x then l else l ++ [x]

/-- Insert into the per-room sorted set with `created_at` as score
(`CacheMessage`'s `ZAdd`): the list is kept ascending by score, a new
member with an equal score going after the existing ones. -/
def zinsert (m : Message) : List Message → List Message
  | [] => [m]
  | x :: xs =>
      if m.createdAt < x.createdAt then m :: x :: xs else x :: zinsert m xs

/-- The cached recent-message window of one room. -/
def cacheOf (st : ChatState) (roomId : String) : List Message :=
  (LSP.alookup st.cache roomId).getD []

/-- `CacheMessage` (`internal/repository/redis.go`): `ZAdd` the message
with its `created_at` as score, then `ZRemRangeByRank 0 (-101)` keeps
only the most recent 100. -/
def cacheMessage (cache : List (String × List Message)) (m : Message) :
    List (String × List Message) :=
  let l := zinsert m ((LSP.alookup cache m.chatroomId).getD [])
  LSP.aput cache m.chatroomId (l.drop (l.length - 100))

/-- Redis `ZRevRange key 0 stop` applied to the already-reversed member
list: a non-negative `stop` keeps the elements at ranks `0..stop`; a
negative `stop` counts from the end (rank `len + stop` — so `-1` is the
last element and the whole list is kept), and when even that lies
before the start rank 0 the result is empty. -/
def zrevrangeStop (l : List Message) (stop : Int) : List Message :=
  let stopIdx : Int := if stop < 0 then (l.length : Int) + stop else stop
  if stopIdx < 0 then [] else l.take (stopIdx.toNat + 1)

/-- `GetCachedMessages` (`internal/repository/redis.go:85-105`):
`ZRevRange key 0 (limit-1)` — cached messages in reverse chronological
order.  For `limit ≥ 1` this is the most recent `limit` messages; for
`limit = 0` (the proto3 default when a caller leaves `Limit` unset,
passed through as `int(req.Limit)`) the stop index is `-1`, so Redis
returns the entire cached window. -/
def getCachedMessages (st : ChatState) (chatroomId : String) (limit : Int) :
    List Message :=
  zrevrangeStop (cacheOf st chatroomId).reverse (limit - 1)

/-- `userClient.GetUser`: succeeds exactly on users present in the
directory, yielding the username. -/
def lookupUser (st : ChatState) (userId : String) : Option String :=
  LSP.alookup st.users userId

/-- gRPC status outcomes used by the chat handlers. -/
inductive ChatStatus
  | ok
  | notFound
  | alreadyExists
  | permissionDenied
  | internal
deriving DecidableEq, Repr

/-- The `system` message appended by join/leave
(`internal/service/chat_service.go`). -/
def systemMessage (mid : Nat) (chatroomId content : String) (now : Int) :
    Message :=
  { id := mid, chatroomId := chatroomId, userId := "system",
    username := "System", content := content, type := .system,
    createdAt := now, isEdited := false }

/-- `JoinChatroom` (`internal/service/chat_service.go:106-189`):
validate the user, load the room, reject with `AlreadyExists` when the
user is already in `member_ids`, otherwise store-level add, update the
Redis user-rooms set, and persist a `"<username> joined the chatroom"`
system message. -/
def joinChatroom (st : ChatState) (chatroomId userId : String) (now : Int) :
    ChatState × ChatStatus :=
  match lookupUser st userId with
  | none => (st, .notFound)
  | some uname =>
      match getChatroom st.chatrooms chatroomId with
      | none => (st, .notFound)
      | some room =>
          if room.memberIds.contains userId then (st, .alreadyExists)
          else
            match addMemberToChatroom st.chatrooms chatroomId userId with
            | none => (st, .internal)
            | some rooms1 =>
                let st1 := { st with
                  chatrooms := rooms1,
                  userRooms := LSP.aput st.userRooms userId
                    (addToSet ((LSP.alookup st.userRooms userId).getD [])
                      chatroomId) }
                ({ st1 with
                    messages := st1.messages ++
                      [systemMessage st1.nextMsgId chatroomId
                        (uname ++ " joined the chatroom") now],
                    nextMsgId := st1.nextMsgId + 1 }, .ok)

/-- `LeaveChatroom` (`internal/service/chat_service.go:191-249`):
validate the user, store-level remove (no creator or last-member
check), update the Redis user-rooms set, and persist a
`"<username> left the chatroom"` system message. -/
def leaveChatroom (st : ChatState) (chatroomId userId : String) (now : Int) :
    ChatState × ChatStatus :=
  match lookupUser st userId with
  | none => (st, .notFound)
  | some uname =>
      match removeMemberFromChatroom st.chatrooms chatroomId userId with
      | none => (st, .internal)
      | some rooms1 =>
          let st1 := { st with
            chatrooms := rooms1,
            userRooms := LSP.aput st.userRooms userId
              (((LSP.alookup st.userRooms userId).getD []).filter
                (fun r => decide (r ≠ chatroomId))) }
          ({ st1 with
              messages := st1.messages ++
                [systemMessage st1.nextMsgId chatroomId
                  (uname ++ " left the chatroom") now],
              nextMsgId := st1.nextMsgId + 1 }, .ok)

/-- `GetMessages` (`internal/service/chat_service.go:329-387`):
validate the user, require membership, then read from the Redis cache;
the DynamoDB fallback (the only consumer of `cursor`) runs only when
the cache read fails, which the failure-free model never does. -/
def getMessages (st : ChatState) (chatroomId userId : String) (limit : Int)
    (cursor : String) : ChatStatus × List Message :=
  match lookupUser st userId with
  | none => (.notFound, [])
  | some _ =>
      match isUserMemberOfChatroom st.chatrooms chatroomId userId with
      | none => (.permissionDenied, [])
      | some false => (.permissionDenied, [])
      | some true => (.ok, getCachedMessages st chatroomId limit)

/-! Concrete chat states used by counterexamples and witnesses. -/

/-- A cached message at time 1. -/
def msg1 : Message :=
  { id := 1, chatroomId := "r1", userId := "u1", username := "alice",
    content := "first", type := .text, createdAt := 1, isEdited := false }

/-- A cached message at time 2. -/
def msg2 : Message :=
  { id := 2, chatroomId := "r1", userId := "u1", username := "alice",
    content := "second", type := .text, createdAt := 2, isEdited := false }

/-- An older message present only in the durable table, not in the
cache. -/
def msg0 : Message :=
  { id := 0, chatroomId := "r1", userId := "u1", username := "alice",
    content := "old", type := .text, createdAt := 0, isEdited := false }

/-- Room `r1` with creator `c1` and member `u1`. -/
def room1 : Chatroom :=
  { id := "r1", name := "general", description := "", creatorId := "c1",
    isPrivate := false, memberIds := ["c1", "u1"], createdAt := 0,
    updatedAt := 0 }

/-- Chat state for the history claim: `u1` is a member, the cache holds
`msg1, msg2`, the durable table additionally holds `msg0`. -/
def c6State : ChatState :=
  { chatrooms := [room1], messages := [msg0, msg1, msg2],
    cache := [("r1", [msg1, msg2])],
    userRooms := [("u1", ["r1"]), ("c1", ["r1"])],
    users := [("u1", "alice"), ("c1", "carol")], nextMsgId := 3 }

/-- Chat state for the membership claims: `room1` plus a joinable user
`u2`. -/
def c7State : ChatState :=
  { chatrooms := [room1], messages := [],
    cache := [], userRooms := [("u1", ["r1"]), ("c1", ["r1"])],
    users := [("u1", "alice"), ("c1", "carol"), ("u2", "bob")],
    nextMsgId := 0 }

end Chat

namespace Hub

/-- A WebSocket client as owned by the hub
(`internal/server/websocket.go`): its bounded send channel (modelled as
the list of queued payloads plus a closed flag) and the set of rooms it
has joined.  Clients are identified by `Nat` ids standing for the Go
pointer identity. -/
structure HClient where
  send : List String
  closed : Bool
  rooms : List String
deriving DecidableEq, Repr

/-- The hub (`internal/server/websocket.go:31-39`): the arena of client
objects, the `clients` index, and the `rooms` index mapping a room id
to its member client ids. -/
structure HubState where
  table : List (Nat × HClient)
  clients : List Nat
  rooms : List (String × List Nat)
deriving Repr

/-- The send-channel capacity: `make(chan []byte, 256)` at client
construction (`HandleWebSocket`). -/
def qClient : Nat := 256

/-- `delete(room, client)` for one room of the index. -/
def removeFromRoom (rooms : List (String × List Nat)) (roomId : String)
    (cid : Nat) : List (String × List Nat) :=
  match LSP.alookup rooms roomId with
  | none => rooms
  | some ms => LSP.aput rooms roomId (ms.filter (fun x => decide (x ≠ cid)))

/-- One iteration of the `BroadcastToRoom` loop
(`internal/server/websocket.go:156-171`): non-blocking send — enqueue
when the channel has room, otherwise `close(client.send)`,
`delete(h.clients, client)`, `delete(room, client)`. -/
def broadcastStep (roomId msg : String) (h : HubState) (cid : Nat) :
    HubState :=
  match LSP.alookup h.table cid with
  | none => h
  | some c =>
      if c.send.length < qClient then
        { h with table := LSP.aput h.table cid { c with send := c.send ++ [msg] } }
      else
        { h with table := LSP.aput h.table cid { c with closed := true },
                 clients := h.clients.filter (fun x => decide (x ≠ cid)),
                 rooms := removeFromRoom h.rooms roomId cid }

/-- `BroadcastToRoom` (`internal/server/websocket.go:156-171`). -/
def broadcastToRoom (h : HubState) (roomId msg : String) : HubState :=
  match LSP.alookup h.rooms roomId with
  | none => h
  | some members => members.foldl (broadcastStep roomId msg) h

/-- One iteration of the global `broadcastMessage` loop
(`internal/server/websocket.go:109-121`): non-blocking send — enqueue
when the channel has room, otherwise `close(client.send)` and
`delete(h.clients, client)` only. -/
def globalStep (msg : String) (h : HubState) (cid : Nat) : HubState :=
  match LSP.alookup h.table cid with
  | none => h
  | some c =>
      if c.send.length < qClient then
        { h with table := LSP.aput h.table cid { c with send := c.send ++ [msg] } }
      else
        { h with table := LSP.aput h.table cid { c with closed := true },
                 clients := h.clients.filter (fun x => decide (x ≠ cid)) }

/-- `broadcastMessage` (`internal/server/websocket.go:109-121`). -/
def broadcastMessage (h : HubState) (msg : String) : HubState :=
  h.clients.foldl (globalStep msg) h

/-! Concrete hub states for the slow-consumer claim. -/

/-- A blocked client: 256 queued payloads, member of rooms `r1` and
`r2`. -/
def blockedClient : HClient :=
  { send := List.replicate 256 "x", closed := false, rooms := ["r1", "r2"] }

/-- A healthy client in room `r1` with an empty queue. -/
def healthyClient : HClient :=
  { send := [], closed := false, rooms := ["r1"] }

/-- A hub with the blocked client (id 1) in rooms `r1` and `r2`, and
the healthy client (id 2) in `r1`. -/
def c9Hub : HubState :=
  { table := [(1, blockedClient), (2, healthyClient)],
    clients := [1, 2],
    rooms := [("r1", [1, 2]), ("r2", [1])] }

end Hub

/-! ## Theorems -/

namespace LSP

theorem alookup_aput_eq [DecidableEq κ] (l : List (κ × α)) (k : κ) (v : α) :
    alookup (aput l k v) k = some v := by
  induction l with
  | nil => simp [alookup, aput]
  | cons p rest ih =>
      obtain ⟨k', v'⟩ := p
      by_cases h : k' = k <;> simp [alookup, aput, h, ih]

theorem alookup_aput_ne [DecidableEq κ] (l : List (κ × α)) (k k₀ : κ) (v : α)
    (h : k₀ ≠ k) : alookup (aput l k v) k₀ = alookup l k₀ := by
  induction l with
  | nil => simp [alookup, aput, Ne.symm h]
  | cons p rest ih =>
      obtain ⟨k', v'⟩ := p
      by_cases hk : k' = k
      · subst hk
        simp [alookup, aput, Ne.symm h]
      · simp [alookup, aput, hk, ih]

end LSP

namespace StreamMgmt

theorem getStreamByID_putStream_self (l : List Stream) (t : Stream) :
    getStreamByID (putStream l t) t.id = some t := by
  induction l with
  | nil => simp [getStreamByID, putStream]
  | cons s rest ih =>
      by_cases h : s.id = t.id <;> simp [getStreamByID, putStream, h, ih]

theorem getStreamByID_putStream_ne (l : List Stream) (t : Stream) (i : Nat)
    (h : i ≠ t.id) : getStreamByID (putStream l t) i = getStreamByID l i := by
  induction l with
  | nil => simp [getStreamByID, putStream, Ne.symm h]
  | cons s rest ih =>
      by_cases hs : s.id = t.id
      · have hsi : ¬ s.id = i := by rw [hs]; exact Ne.symm h
        simp [getStreamByID, putStream, hs, hsi, Ne.symm h]
      · simp [getStreamByID, putStream, hs, ih]

/-- If the id being written is absent from the table, `putStream` is an
append (the `PutItem` of a freshly generated id). -/
theorem putStream_fresh (l : List Stream) (t : Stream)
    (h : ∀ s ∈ l, s.id ≠ t.id) : putStream l t = l ++ [t] := by
  induction l with
  | nil => simp [putStream]
  | cons s rest ih =>
      simp only [putStream, h s (by simp), if_false, List.cons_append]
      rw [ih (fun x hx => h x (by simp [hx]))]

theorem length_putStream_fresh (l : List Stream) (t : Stream)
    (h : ∀ s ∈ l, s.id ≠ t.id) :
    (putStream l t).length = l.length + 1 := by
  rw [putStream_fresh l t h]; simp

theorem updatedRecord_id (s : Stream) (req : UpdateStreamRequest)
    (now : Int) : (updatedRecord s req now).id = s.id := by
  simp only [updatedRecord]
  split <;> split <;> split <;> rfl

theorem updatedRecord_status (s : Stream) (req : UpdateStreamRequest)
    (now : Int) :
    (updatedRecord s req now).status =
      (if req.status = GrpcStreamStatus.streamPending then s.status
       else grpcToModelStatus req.status) := by
  simp only [updatedRecord]
  by_cases hp : req.status = GrpcStreamStatus.streamPending <;>
    · simp only [hp]
      split <;> split <;> simp

theorem getStreamByID_eq_some (l : List Stream) (i : Nat) (s : Stream)
    (h : getStreamByID l i = some s) : s ∈ l ∧ s.id = i := by
  induction l with
  | nil => simp [getStreamByID] at h
  | cons t rest ih =>
      by_cases ht : t.id = i
      · simp [getStreamByID, ht] at h
        subst h
        exact ⟨by simp, ht⟩
      · simp [getStreamByID, ht] at h
        obtain ⟨hm, hid⟩ := ih h
        exact ⟨by simp [hm], hid⟩

/-- Shape of a successful `StreamStarted` call: the new record is
stored under the fresh id `st.nextId`, the session's `stream_id` is
overwritten with it, and a `stream_started` event is appended. -/
theorem streamStarted_of_session (st : SMState) (name ip app : String)
    (now : Int) (sess : Session)
    (hs : LSP.alookup st.sessions (extractStreamKey name) = some sess) :
    streamStarted st name ip app now =
      ({ streams := putStream st.streams
           { startedStreamRecord sess (extractStreamKey name) ip app now with
               id := st.nextId },
         sessions := LSP.aput st.sessions (extractStreamKey name)
           { sess with streamId := some st.nextId,
                       streamStartedAt := some now },
         nextId := st.nextId + 1,
         events := st.events ++ [startedEvent st.nextId sess.userId now] },
       some st.nextId) := by
  simp [streamStarted, createStream, hs]

end StreamMgmt

namespace StreamMgmt

/-- **C1, counterexample.** Starting from a state with a stored session
for key `abcdef12` and an empty stream table, a second `StreamStarted`
callback for the same key within the same session returns a different
`stream_id` than the first call, and the table then holds two stream
records — the call is not idempotent and does create a second record. -/
theorem streamStarted_redelivery_counterexample :
    ((streamStarted (streamStarted sampleState "abcdef12" "1.2.3.4" "live" 100).1
        "abcdef12" "1.2.3.4" "live" 101).2 ≠
      (streamStarted sampleState "abcdef12" "1.2.3.4" "live" 100).2) ∧
    (streamStarted (streamStarted sampleState "abcdef12" "1.2.3.4" "live" 100).1
        "abcdef12" "1.2.3.4" "live" 101).1.streams.length = 2 := by
  decide

/-- **C1** (amended): `StreamStarted` performs no idempotency check: a
second callback carrying the same stream key within the same session
returns a fresh `stream_id` different from the first call's, and adds a
second stream record to the table (the session's `stream_id` is simply
overwritten). -/
theorem streamStarted_redelivery_creates_second_record (st : SMState)
    (name ip app : String) (now1 now2 : Int) (sess : Session)
    (hs : LSP.alookup st.sessions (extractStreamKey name) = some sess)
    (hfresh : ∀ s ∈ st.streams, s.id < st.nextId) :
    (streamStarted st name ip app now1).2 = some st.nextId ∧
    (streamStarted (streamStarted st name ip app now1).1 name ip app now2).2
      = some (st.nextId + 1) ∧
    st.nextId + 1 ≠ st.nextId ∧
    (streamStarted (streamStarted st name ip app now1).1 name ip app
        now2).1.streams.length = st.streams.length + 2 := by
  have e1 := streamStarted_of_session st name ip app now1 sess hs
  have hs2 : LSP.alookup (streamStarted st name ip app now1).1.sessions
      (extractStreamKey name) =
      some { sess with streamId := some st.nextId,
                       streamStartedAt := some now1 } := by
    rw [e1]
    exact LSP.alookup_aput_eq _ _ _
  have e2 := streamStarted_of_session (streamStarted st name ip app now1).1
      name ip app now2 _ hs2
  have hfr1 : ∀ s ∈ st.streams, s.id ≠
      ({ startedStreamRecord sess (extractStreamKey name) ip app now1 with
          id := st.nextId } : Stream).id := by
    intro s hm
    simpa using Nat.ne_of_lt (hfresh s hm)
  have hfr2 : ∀ s ∈ st.streams ++
      [({ startedStreamRecord sess (extractStreamKey name) ip app now1 with
          id := st.nextId } : Stream)], s.id ≠
      ({ startedStreamRecord
          { sess with streamId := some st.nextId, streamStartedAt := some now1 }
          (extractStreamKey name) ip app now2 with
          id := st.nextId + 1 } : Stream).id := by
    intro s hm
    rcases List.mem_append.1 hm with h | h
    · show s.id ≠ st.nextId + 1
      have := hfresh s h
      omega
    · simp at h
      subst h
      show st.nextId ≠ st.nextId + 1
      omega
  refine ⟨by rw [e1], ?_, by simp, ?_⟩
  · rw [e2, e1]
  · rw [e2, e1]
    show (putStream (putStream st.streams
      ({ startedStreamRecord sess (extractStreamKey name) ip app now1 with
          id := st.nextId }))
      ({ startedStreamRecord
          { sess with streamId := some st.nextId, streamStartedAt := some now1 }
          (extractStreamKey name) ip app now2 with
          id := st.nextId + 1 })).length = st.streams.length + 2
    rw [putStream_fresh _ _ hfr1, length_putStream_fresh _ _ hfr2]
    simp

/-- **C1, witness.** The amended theorem applied to the concrete
single-session state. -/
theorem streamStarted_redelivery_creates_second_record_witness :
    (LSP.alookup sampleState.sessions (extractStreamKey "abcdef12")
       = some sampleSession) ∧
    ((streamStarted sampleState "abcdef12" "1.2.3.4" "live" 100).2
       = some sampleState.nextId ∧
     (streamStarted (streamStarted sampleState "abcdef12" "1.2.3.4" "live" 100).1
        "abcdef12" "1.2.3.4" "live" 101).2 = some (sampleState.nextId + 1) ∧
     sampleState.nextId + 1 ≠ sampleState.nextId ∧
     (streamStarted (streamStarted sampleState "abcdef12" "1.2.3.4" "live" 100).1
        "abcdef12" "1.2.3.4" "live" 101).1.streams.length
       = sampleState.streams.length + 2) :=
  ⟨by decide,
   streamStarted_redelivery_creates_second_record sampleState "abcdef12"
     "1.2.3.4" "live" 100 101 sampleSession (by decide)
     (by intro s hm; simp [sampleState] at hm)⟩

theorem liveStreamCount_append (l1 l2 : List Stream) (u : Int) :
    liveStreamCount (l1 ++ l2) u
      = liveStreamCount l1 u + liveStreamCount l2 u := by
  simp [liveStreamCount, List.filter_append]

/-- **C2, counterexample.** User 7 already owns a live stream and holds
a session for a second key; processing `StreamStarted` for that session
leaves user 7 with two live stream records, violating the claimed
at-most-one-live-stream-per-user invariant. -/
theorem live_uniqueness_violated_counterexample :
    liveStreamCount dupState.streams 7 = 1 ∧
    liveStreamCount
      (streamStarted dupState "xyz12345" "1.2.3.4" "live" 100).1.streams 7
      = 2 := by
  decide

/-- **C2** (amended): `StreamStarted` performs no per-user uniqueness
check: every successful callback adds exactly one more `live` stream
record for the session's user, even when that user already owns a live
stream. -/
theorem streamStarted_increments_live_count (st : SMState)
    (name ip app : String) (now : Int) (sess : Session)
    (hs : LSP.alookup st.sessions (extractStreamKey name) = some sess)
    (hfresh : ∀ s ∈ st.streams, s.id < st.nextId) :
    liveStreamCount (streamStarted st name ip app now).1.streams sess.userId
      = liveStreamCount st.streams sess.userId + 1 := by
  rw [streamStarted_of_session st name ip app now sess hs]
  have hfr : ∀ s ∈ st.streams, s.id ≠
      ({ startedStreamRecord sess (extractStreamKey name) ip app now with
          id := st.nextId } : Stream).id := by
    intro s hm
    simpa using Nat.ne_of_lt (hfresh s hm)
  show liveStreamCount (putStream st.streams _) sess.userId = _
  rw [putStream_fresh _ _ hfr, liveStreamCount_append]
  simp [liveStreamCount, startedStreamRecord]

/-- **C2, witness.** The amended theorem applied to the state in which
user 7 already owns a live stream. -/
theorem streamStarted_increments_live_count_witness :
    (LSP.alookup dupState.sessions (extractStreamKey "xyz12345")
       = some { userId := 7, username := "alice", streamKey := "xyz12345",
                clientIp := "1.2.3.4", appName := "live", startedAt := 50,
                streamId := none, streamStartedAt := none }) ∧
    (∀ s ∈ dupState.streams, s.id < dupState.nextId) ∧
    liveStreamCount
      (streamStarted dupState "xyz12345" "1.2.3.4" "live" 100).1.streams 7
      = liveStreamCount dupState.streams 7 + 1 :=
  ⟨by decide, by decide,
   streamStarted_increments_live_count dupState "xyz12345" "1.2.3.4" "live"
     100 { userId := 7, username := "alice", streamKey := "xyz12345",
           clientIp := "1.2.3.4", appName := "live", startedAt := 50,
           streamId := none, streamStartedAt := none }
     (by decide) (by decide)⟩

end StreamMgmt

namespace StreamMgmt

/-- **C3, counterexample.** A single `UpdateStream` call requesting
`STREAM_LIVE` moves a stream whose status is `ended` back to `live`:
the handler enforces no forward-only order. -/
theorem updateStream_backward_counterexample :
    Option.map (fun s => s.status) (getStreamByID endedState.streams 1)
      = some StreamStatus.ended ∧
    Option.map (fun s => s.status)
      (getStreamByID (updateStream endedState
        { streamId := 1, status := GrpcStreamStatus.streamLive,
          viewerCount := 0, durationSeconds := 0 } 30).1.streams 1)
      = some StreamStatus.live := by
  decide

/-- **C3** (amended): `UpdateStream` overwrites `status` with the
requested status whenever the request's status is not `STREAM_PENDING`,
and leaves it unchanged otherwise; there is no forward-only check, so
in particular an `ended` or `error` stream can be moved back to `live`
by a single call. -/
theorem updateStream_overwrites_status (st : SMState)
    (req : UpdateStreamRequest) (now : Int) (s : Stream)
    (hs : getStreamByID st.streams req.streamId = some s) :
    (updateStream st req now).2 = true ∧
    getStreamByID (updateStream st req now).1.streams req.streamId
      = some (updatedRecord s req now) ∧
    (updatedRecord s req now).status
      = (if req.status = GrpcStreamStatus.streamPending then s.status
         else grpcToModelStatus req.status) := by
  have hid := (getStreamByID_eq_some _ _ _ hs).2
  refine ⟨by simp [updateStream, hs], ?_, updatedRecord_status s req now⟩
  have hkey : (updatedRecord s req now).id = req.streamId := by
    rw [updatedRecord_id, hid]
  have h := getStreamByID_putStream_self st.streams (updatedRecord s req now)
  rw [hkey] at h
  simpa [updateStream, hs] using h

/-- **C3, witness.** The amended theorem applied to the concrete ended
stream and a `STREAM_LIVE` update request. -/
theorem updateStream_overwrites_status_witness :
    (getStreamByID endedState.streams 1 = some endedStream) ∧
    ((updateStream endedState
        { streamId := 1, status := GrpcStreamStatus.streamLive,
          viewerCount := 0, durationSeconds := 0 } 30).2 = true ∧
     getStreamByID (updateStream endedState
        { streamId := 1, status := GrpcStreamStatus.streamLive,
          viewerCount := 0, durationSeconds := 0 } 30).1.streams 1
       = some (updatedRecord endedStream
          { streamId := 1, status := GrpcStreamStatus.streamLive,
            viewerCount := 0, durationSeconds := 0 } 30) ∧
     (updatedRecord endedStream
        { streamId := 1, status := GrpcStreamStatus.streamLive,
          viewerCount := 0, durationSeconds := 0 } 30).status
       = (if GrpcStreamStatus.streamLive = GrpcStreamStatus.streamPending
          then endedStream.status
          else grpcToModelStatus GrpcStreamStatus.streamLive)) :=
  ⟨by decide,
   updateStream_overwrites_status endedState
     { streamId := 1, status := GrpcStreamStatus.streamLive,
       viewerCount := 0, durationSeconds := 0 } 30 endedStream (by decide)⟩

/-- **C4, counterexample.** `StreamEnded` with no caller-supplied
duration: the stream started at 100 and ends at `now = 200`, so the
claimed fallback `now − started_at` is 100, but the code stores
`duration_seconds = 0`. -/
theorem endStream_no_duration_counterexample :
    Option.map (fun s => s.duration)
      (getStreamByID (endStream c4State "k123456" none 200).1.streams 1)
      = some 0 ∧
    Option.map (fun s => Option.map (fun t => (200 : Int) - t) s.startedAt)
      (getStreamByID c4State.streams 1) = some (some 100) ∧
    (0 : Int) ≠ 100 := by
  decide

/-- **C4** (amended): `StreamEnded` sets `status=ended`,
`ended_at=now`, `updated_at=now`, and `duration_seconds` equal to the
caller-supplied duration when one is present; when the caller supplies
no duration, `duration_seconds` is set to 0, not to
`now − started_at`. -/
theorem endStream_sets_ended_fields (st : SMState) (key : String)
    (d : Option Int) (now : Int) (s : Stream)
    (hs : getStreamByStreamKey st.streams key = some s) :
    (endStream st key d now).2 = true ∧
    getStreamByID (endStream st key d now).1.streams s.id
      = some { s with status := .ended, endedAt := some now,
                      duration := match d with
                        | some v => v
                        | none => 0,
                      updatedAt := now } := by
  constructor
  · simp [endStream, hs]
  · have h := getStreamByID_putStream_self st.streams
      { s with status := .ended, endedAt := some now,
               duration := match d with
                 | some v => v
                 | none => 0,
               updatedAt := now }
    simpa [endStream, hs] using h

/-- **C4, witness.** The amended theorem applied to the concrete live
stream, once with a caller-supplied duration of 30 and once with none. -/
theorem endStream_sets_ended_fields_witness :
    (getStreamByStreamKey c4State.streams "k123456" = some c4Stream) ∧
    ((endStream c4State "k123456" (some 30) 200).2 = true ∧
     getStreamByID (endStream c4State "k123456" (some 30) 200).1.streams 1
       = some { c4Stream with status := .ended, endedAt := some 200,
                              duration := 30, updatedAt := 200 }) ∧
    ((endStream c4State "k123456" none 200).2 = true ∧
     getStreamByID (endStream c4State "k123456" none 200).1.streams 1
       = some { c4Stream with status := .ended, endedAt := some 200,
                              duration := 0, updatedAt := 200 }) :=
  ⟨by decide,
   endStream_sets_ended_fields c4State "k123456" (some 30) 200 c4Stream
     (by decide),
   endStream_sets_ended_fields c4State "k123456" none 200 c4Stream
     (by decide)⟩

end StreamMgmt

namespace StreamMgmt

theorem endExpired_id (now : Int) (s : Stream) :
    (endExpired now s).id = s.id := rfl

theorem cleanup_foldl_not_mem (now : Int) (q : List Stream)
    (acc : List Stream) (i : Nat) (h : ∀ t ∈ q, t.id ≠ i) :
    getStreamByID
      (q.foldl (fun acc s => putStream acc (endExpired now s)) acc) i
      = getStreamByID acc i := by
  induction q generalizing acc with
  | nil => rfl
  | cons t q' ih =>
      simp only [List.foldl_cons]
      have hne : i ≠ (endExpired now t).id := by
        rw [endExpired_id]
        exact Ne.symm (h t (by simp))
      rw [ih _ (fun u hu => h u (by simp [hu])),
        getStreamByID_putStream_ne acc _ i hne]

theorem cleanup_foldl_mem (now : Int) (q : List Stream) (acc : List Stream)
    (s : Stream) (hmem : s ∈ q)
    (hnd : (q.map (fun t => t.id)).Nodup) :
    getStreamByID
      (q.foldl (fun acc s => putStream acc (endExpired now s)) acc) s.id
      = some (endExpired now s) := by
  induction q generalizing acc with
  | nil => simp at hmem
  | cons t q' ih =>
      simp only [List.map_cons, List.nodup_cons] at hnd
      obtain ⟨hnotin, hnd'⟩ := hnd
      simp only [List.foldl_cons]
      rcases List.mem_cons.1 hmem with rfl | hmem'
      · rw [cleanup_foldl_not_mem now q' _ s.id ?hq]
        case hq =>
          intro u hu he
          exact hnotin (he ▸ List.mem_map_of_mem (fun t => t.id) hu)
        have h := getStreamByID_putStream_self acc (endExpired now s)
        rw [endExpired_id] at h
        exact h
      · exact ih (putStream acc (endExpired now t)) hmem' hnd'

end StreamMgmt

namespace StreamMgmt

/-- **C5.** One reaper cycle (`CleanupExpiredStreams`, scheduled every
5 minutes by `cmd/server/main.go:302-313`): a live stream transitions
to `ended` exactly when `started_at` is more than 12 hours old and
`updated_at` is more than 1 hour old; the transition sets
`duration = now − started_at` and publishes a `stream_cleanup` event
with `reason = "expired"`, and live streams not meeting both conditions
are left unchanged. -/
theorem cleanup_expired_characterization (st : SMState) (now : Int)
    (i : Nat) (s : Stream)
    (hnd : (st.streams.map (fun t => t.id)).Nodup)
    (hs : getStreamByID st.streams i = some s)
    (hlive : s.status = StreamStatus.live) :
    (isExpired now s = true →
       getStreamByID (cleanupExpiredStreams st now).streams i
         = some (endExpired now s) ∧
       (endExpired now s).status = StreamStatus.ended ∧
       (∀ t0, s.startedAt = some t0 → (endExpired now s).duration = now - t0) ∧
       cleanupEvent now s ∈ (cleanupExpiredStreams st now).events ∧
       (cleanupEvent now s).reason = some "expired") ∧
    (isExpired now s = false →
       getStreamByID (cleanupExpiredStreams st now).streams i = some s) := by
  obtain ⟨hmem, hid⟩ := getStreamByID_eq_some _ _ _ hs
  have hsub : ((getStreamsByStatus st.streams StreamStatus.live).filter
      (isExpired now)).Sublist st.streams :=
    (List.filter_sublist _).trans (List.filter_sublist _)
  have hndq : (((getStreamsByStatus st.streams StreamStatus.live).filter
      (isExpired now)).map (fun t => t.id)).Nodup :=
    (hsub.map (fun t => t.id)).nodup hnd
  constructor
  · intro hexp
    have hsq : s ∈ (getStreamsByStatus st.streams StreamStatus.live).filter
        (isExpired now) := by
      refine List.mem_filter.2 ⟨?_, hexp⟩
      exact List.mem_filter.2 ⟨hmem, by simp [hlive]⟩
    refine ⟨?_, rfl, ?_, ?_, rfl⟩
    · have h := cleanup_foldl_mem now _ st.streams s hsq hndq
      rw [hid] at h
      simpa [cleanupExpiredStreams, getStreamsByStatus] using h
    · intro t0 ht0
      simp [endExpired, ht0]
    · have : cleanupEvent now s ∈ ((getStreamsByStatus st.streams
          StreamStatus.live).filter (isExpired now)).map (cleanupEvent now) :=
        List.mem_map_of_mem (cleanupEvent now) hsq
      simp only [cleanupExpiredStreams]
      exact List.mem_append.2 (Or.inr this)
  · intro hnexp
    have hni : ∀ t ∈ (getStreamsByStatus st.streams StreamStatus.live).filter
        (isExpired now), t.id ≠ i := by
      intro t ht he
      have htm : t ∈ st.streams := hsub.subset ht
      have hts : t = s :=
        List.inj_on_of_nodup_map hnd htm hmem (by rw [he, hid])
      have hexp : isExpired now t = true := (List.mem_filter.1 ht).2
      rw [hts, hnexp] at hexp
      exact Bool.false_ne_true hexp
    have h := cleanup_foldl_not_mem now _ st.streams i hni
    rw [hs] at h
    simpa [cleanupExpiredStreams, getStreamsByStatus] using h

/-- **C5, witness.** The reaper theorem applied to a concrete state at
`now = 50000` whose live stream with id 1 started at 0 (13.9 h ago) and
was last updated at 0 (13.9 h ago), i.e. is expired. -/
theorem cleanup_expired_characterization_witness :
    ((c5State.streams.map (fun t => t.id)).Nodup) ∧
    (getStreamByID c5State.streams 1 = some c5Expired) ∧
    (c5Expired.status = StreamStatus.live) ∧
    ((isExpired 50000 c5Expired = true →
       getStreamByID (cleanupExpiredStreams c5State 50000).streams 1
         = some (endExpired 50000 c5Expired) ∧
       (endExpired 50000 c5Expired).status = StreamStatus.ended ∧
       (∀ t0, c5Expired.startedAt = some t0 →
         (endExpired 50000 c5Expired).duration = 50000 - t0) ∧
       cleanupEvent 50000 c5Expired ∈ (cleanupExpiredStreams c5State 50000).events ∧
       (cleanupEvent 50000 c5Expired).reason = some "expired") ∧
     (isExpired 50000 c5Expired = false →
       getStreamByID (cleanupExpiredStreams c5State 50000).streams 1
         = some c5Expired)) :=
  ⟨by decide, by decide, by decide,
   cleanup_expired_characterization c5State 50000 1 c5Expired (by decide)
     (by decide) (by decide)⟩

end StreamMgmt

namespace StreamMgmt

/-- **C10.** With no User-directory client configured, stream-key
validation is length-only: the gRPC `ValidateStreamKey` fallback
accepts every key of length at least 8 as user 123 / `fallback_user`,
and the ingest `/auth` handler accepts every name whose extracted key
has length greater than 5 as user 123 / `test_user`, storing a session
for the key — in both paths without consulting any User directory
(`validateStreamKeyGRPC` takes the `none` branch, and
`validateStreamKeyHTTP` takes no directory at all). -/
theorem fallback_validation_accepts (st : SMState)
    (key ip name ipa app : String) (now : Int)
    (h8 : 8 ≤ key.length) (h5 : 5 < (extractStreamKey name).length) :
    validateStreamKeyGRPC none key ip =
      { success := true, isValid := true, userId := 123,
        username := "fallback_user" } ∧
    (authenticateStream st name ipa app now).2
      = AuthResult.authorized 123 "test_user" ∧
    LSP.alookup (authenticateStream st name ipa app now).1.sessions
        (extractStreamKey name)
      = some { userId := 123, username := "test_user",
               streamKey := extractStreamKey name, clientIp := ipa,
               appName := app, startedAt := now, streamId := none,
               streamStartedAt := none } := by
  refine ⟨by simp [validateStreamKeyGRPC, h8], ?_, ?_⟩
  · simp [authenticateStream, validateStreamKeyHTTP, h5]
  · simp only [authenticateStream, validateStreamKeyHTTP, h5, if_true]
    exact LSP.alookup_aput_eq _ _ _

/-- **C10, witness.** The fallback acceptance theorem applied to the
key `abcdef12` and the ingest name `live/abcdef` (whose extracted key
is `abcdef`). -/
theorem fallback_validation_accepts_witness :
    (8 ≤ ("abcdef12" : String).length) ∧
    (5 < (extractStreamKey "live/abcdef").length) ∧
    (validateStreamKeyGRPC none "abcdef12" "1.2.3.4" =
      { success := true, isValid := true, userId := 123,
        username := "fallback_user" } ∧
     (authenticateStream sampleState "live/abcdef" "1.2.3.4" "live" 77).2
       = AuthResult.authorized 123 "test_user" ∧
     LSP.alookup (authenticateStream sampleState "live/abcdef" "1.2.3.4"
         "live" 77).1.sessions (extractStreamKey "live/abcdef")
       = some { userId := 123, username := "test_user",
                streamKey := extractStreamKey "live/abcdef",
                clientIp := "1.2.3.4", appName := "live", startedAt := 77,
                streamId := none, streamStartedAt := none }) :=
  ⟨by decide, by decide,
   fallback_validation_accepts sampleState "abcdef12" "1.2.3.4"
     "live/abcdef" "1.2.3.4" "live" 77 (by decide) (by decide)⟩

end StreamMgmt

namespace Chat

theorem getChatroom_putChatroom_self (l : List Chatroom) (t : Chatroom) :
    getChatroom (putChatroom l t) t.id = some t := by
  induction l with
  | nil => simp [getChatroom, putChatroom]
  | cons r rest ih =>
      by_cases h : r.id = t.id <;> simp [getChatroom, putChatroom, h, ih]

theorem getChatroom_putChatroom_of_id (l : List Chatroom) (t : Chatroom)
    (i : String) (h : t.id = i) : getChatroom (putChatroom l t) i = some t := by
  rw [← h]
  exact getChatroom_putChatroom_self l t

theorem getChatroom_eq_some (l : List Chatroom) (i : String) (r : Chatroom)
    (h : getChatroom l i = some r) : r ∈ l ∧ r.id = i := by
  induction l with
  | nil => simp [getChatroom] at h
  | cons t rest ih =>
      by_cases ht : t.id = i
      · simp [getChatroom, ht] at h
        subst h
        exact ⟨by simp, ht⟩
      · simp [getChatroom, ht] at h
        obtain ⟨hm, hid⟩ := ih h
        exact ⟨by simp [hm], hid⟩

theorem zinsert_mem (m b : Message) (l : List Message) :
    b ∈ zinsert m l ↔ b = m ∨ b ∈ l := by
  induction l with
  | nil => simp [zinsert]
  | cons x xs ih =>
      by_cases hlt : m.createdAt < x.createdAt
      · simp [zinsert, hlt]
      · simp [zinsert, hlt, ih]
        tauto

/-- `ZAdd` keeps the per-room cache ascending by `created_at`. -/
theorem zinsert_pairwise (m : Message) (l : List Message)
    (h : l.Pairwise (fun a b => a.createdAt ≤ b.createdAt)) :
    (zinsert m l).Pairwise (fun a b => a.createdAt ≤ b.createdAt) := by
  induction l with
  | nil => simp [zinsert]
  | cons x xs ih =>
      rcases List.pairwise_cons.1 h with ⟨hx, hxs⟩
      by_cases hlt : m.createdAt < x.createdAt
      · simp only [zinsert, if_pos hlt]
        refine List.pairwise_cons.2 ⟨?_, h⟩
        intro b hb
        rcases List.mem_cons.1 hb with rfl | hb'
        · omega
        · have := hx b hb'
          omega
      · simp only [zinsert, if_neg hlt]
        refine List.pairwise_cons.2 ⟨?_, ih hxs⟩
        intro b hb
        rcases (zinsert_mem m b xs).1 hb with rfl | hb'
        · omega
        · exact hx b hb'

end Chat

namespace Chat

/-- **C6, counterexample.** An authorized `GetMessages` call on a room
whose cache holds messages at times 1 and 2 returns them in reverse
chronological order `[msg2, msg1]` — not ascending; and a call with a
non-empty cursor still reads the cache (it equals the empty-cursor
call, and misses `msg0`, which is present only in the durable table). -/
theorem getMessages_order_counterexample :
    (getMessages c6State "r1" "u1" 10 "").2 = [msg2, msg1] ∧
    ¬ ((getMessages c6State "r1" "u1" 10 "").2.Pairwise
        (fun a b => a.createdAt ≤ b.createdAt)) ∧
    getMessages c6State "r1" "u1" 10 "cursor-abc"
      = getMessages c6State "r1" "u1" 10 "" ∧
    msg0 ∈ c6State.messages ∧
    msg0 ∉ (getMessages c6State "r1" "u1" 10 "cursor-abc").2 := by
  decide

theorem zrevrangeStop_sublist (l : List Message) (stop : Int) :
    (zrevrangeStop l stop).Sublist l := by
  simp only [zrevrangeStop]
  split
  · split
    · exact List.nil_sublist l
    · exact List.take_sublist _ l
  · exact List.take_sublist _ l

/-- For a positive `limit`, `ZRevRange 0 (limit-1)` is the first
`limit` elements. -/
theorem zrevrangeStop_of_one_le (l : List Message) (limit : Int)
    (h : 1 ≤ limit) :
    zrevrangeStop l (limit - 1) = l.take limit.toNat := by
  have h0 : ¬ (limit - 1 < 0) := by omega
  have h1 : (limit - 1).toNat + 1 = limit.toNat := by omega
  simp only [zrevrangeStop, if_neg h0, h1]

/-- `ZRevRange 0 (-1)` returns the whole list. -/
theorem zrevrangeStop_neg_one (l : List Message) :
    zrevrangeStop l (-1) = l := by
  simp only [zrevrangeStop]
  rw [if_pos (by omega : (-1 : Int) < 0)]
  cases l with
  | nil => simp
  | cons x xs =>
      have hlen : ((x :: xs).length : Int) + -1 = (xs.length : Int) := by
        simp
      rw [hlen, if_neg (by omega : ¬ ((xs.length : Int) < 0))]
      have ht : ((xs.length : Int)).toNat + 1 = (x :: xs).length := by
        simp
      rw [ht, List.take_length]

/-- For `limit = 0` (stop index `-1`), `ZRevRange` returns the whole
list. -/
theorem zrevrangeStop_of_zero (l : List Message) (limit : Int)
    (h : limit = 0) : zrevrangeStop l (limit - 1) = l := by
  subst h
  have h1 : (0 : Int) - 1 = -1 := by norm_num
  rw [h1]
  exact zrevrangeStop_neg_one l

/-- **C6** (amended): an authorized `get_messages` call always reads
the hot cache — regardless of the cursor, which is only passed to the
durable-store fallback that runs when the cache read fails — and
returns the `ZRevRange 0 (limit-1)` window of the cached messages in
reverse chronological order (descending by `created_at`): the most
recent `limit` messages when `limit ≥ 1`, and the entire cached window
when `limit = 0` (the proto3 default, which makes the Redis stop index
`-1`). -/
theorem getMessages_cache_first_descending (st : ChatState)
    (roomId userId : String) (limit : Int) (cursor cursor2 : String)
    (uname : String) (r : Chatroom)
    (hu : lookupUser st userId = some uname)
    (hr : getChatroom st.chatrooms roomId = some r)
    (hm : r.memberIds.contains userId = true)
    (hsorted : (cacheOf st roomId).Pairwise
      (fun a b => a.createdAt ≤ b.createdAt)) :
    getMessages st roomId userId limit cursor
      = (ChatStatus.ok, getCachedMessages st roomId limit) ∧
    (1 ≤ limit → getCachedMessages st roomId limit
       = (cacheOf st roomId).reverse.take limit.toNat) ∧
    (limit = 0 → getCachedMessages st roomId limit
       = (cacheOf st roomId).reverse) ∧
    getMessages st roomId userId limit cursor
      = getMessages st roomId userId limit cursor2 ∧
    ((getMessages st roomId userId limit cursor).2).Pairwise
      (fun a b => b.createdAt ≤ a.createdAt) := by
  have hm' : userId ∈ r.memberIds := by simpa using hm
  have h1 : getMessages st roomId userId limit cursor
      = (ChatStatus.ok, getCachedMessages st roomId limit) := by
    simp [getMessages, hu, isUserMemberOfChatroom, hr, hm']
  have h2 : getMessages st roomId userId limit cursor2
      = (ChatStatus.ok, getCachedMessages st roomId limit) := by
    simp [getMessages, hu, isUserMemberOfChatroom, hr, hm']
  refine ⟨h1, ?_, ?_, by rw [h1, h2], ?_⟩
  · intro hl
    exact zrevrangeStop_of_one_le _ limit hl
  · intro hl
    exact zrevrangeStop_of_zero _ limit hl
  · rw [h1]
    have hrev : ((cacheOf st roomId).reverse).Pairwise
        (fun a b => b.createdAt ≤ a.createdAt) :=
      (List.pairwise_reverse).2 hsorted
    exact hrev.sublist (zrevrangeStop_sublist _ _)

/-- **C6, witness.** The amended theorem applied to the concrete cache
holding `[msg1, msg2]`, once with `limit = 10` (most recent 10,
descending) and once with `limit = 0` (the entire cached window,
descending). -/
theorem getMessages_cache_first_descending_witness :
    (lookupUser c6State "u1" = some "alice") ∧
    (getChatroom c6State.chatrooms "r1" = some room1) ∧
    (room1.memberIds.contains "u1" = true) ∧
    ((cacheOf c6State "r1").Pairwise
      (fun a b => a.createdAt ≤ b.createdAt)) ∧
    (getMessages c6State "r1" "u1" 10 "cursor-abc"
       = (ChatStatus.ok, getCachedMessages c6State "r1" 10) ∧
     (1 ≤ (10 : Int) → getCachedMessages c6State "r1" 10
        = (cacheOf c6State "r1").reverse.take (10 : Int).toNat) ∧
     ((10 : Int) = 0 → getCachedMessages c6State "r1" 10
        = (cacheOf c6State "r1").reverse) ∧
     getMessages c6State "r1" "u1" 10 "cursor-abc"
       = getMessages c6State "r1" "u1" 10 "" ∧
     ((getMessages c6State "r1" "u1" 10 "cursor-abc").2).Pairwise
       (fun a b => b.createdAt ≤ a.createdAt)) ∧
    (getMessages c6State "r1" "u1" 0 "cursor-abc"
       = (ChatStatus.ok, getCachedMessages c6State "r1" 0) ∧
     (1 ≤ (0 : Int) → getCachedMessages c6State "r1" 0
        = (cacheOf c6State "r1").reverse.take (0 : Int).toNat) ∧
     ((0 : Int) = 0 → getCachedMessages c6State "r1" 0
        = (cacheOf c6State "r1").reverse) ∧
     getMessages c6State "r1" "u1" 0 "cursor-abc"
       = getMessages c6State "r1" "u1" 0 "" ∧
     ((getMessages c6State "r1" "u1" 0 "cursor-abc").2).Pairwise
       (fun a b => b.createdAt ≤ a.createdAt)) :=
  ⟨by decide, by decide, by decide, by decide,
   getMessages_cache_first_descending c6State "r1" "u1" 10 "cursor-abc" ""
     "alice" room1 (by decide) (by decide) (by decide) (by decide),
   getMessages_cache_first_descending c6State "r1" "u1" 0 "cursor-abc" ""
     "alice" room1 (by decide) (by decide) (by decide) (by decide)⟩

/-- **C7, counterexample.** `u1` is already a member of `room1`, yet
the store-level `AddMemberToChatroom` is not a no-op: it appends `u1`
again, changing the member list and leaving a duplicate entry. -/
theorem addMember_not_noop_counterexample :
    addMemberToChatroom [room1] "r1" "u1"
      = some [{ room1 with memberIds := ["c1", "u1", "u1"] }] ∧
    (["c1", "u1", "u1"] : List String) ≠ room1.memberIds ∧
    ¬ (["c1", "u1", "u1"] : List String).Nodup := by
  decide

/-- **C7** (amended): the store-level `add_member` unconditionally
`list_append`s the user onto `member_ids` — a second store-level call
for the same user duplicates the entry — and the already-a-member
no-op is enforced only one level up: `JoinChatroom` answers
`AlreadyExists` and leaves the state unchanged when the user is already
in `member_ids`. -/
theorem addMember_appends_join_rejects_duplicate
    (rooms : List Chatroom) (roomId userId : String) (r : Chatroom)
    (hr : getChatroom rooms roomId = some r)
    (st : ChatState) (roomId2 userId2 : String) (now : Int) (r2 : Chatroom)
    (uname : String)
    (hu : lookupUser st userId2 = some uname)
    (hr2 : getChatroom st.chatrooms roomId2 = some r2)
    (hm : r2.memberIds.contains userId2 = true) :
    addMemberToChatroom rooms roomId userId
      = some (putChatroom rooms
          { r with memberIds := r.memberIds ++ [userId] }) ∧
    getChatroom (putChatroom rooms
        { r with memberIds := r.memberIds ++ [userId] }) roomId
      = some { r with memberIds := r.memberIds ++ [userId] } ∧
    joinChatroom st roomId2 userId2 now = (st, ChatStatus.alreadyExists) := by
  have hid := (getChatroom_eq_some _ _ _ hr).2
  have hm' : userId2 ∈ r2.memberIds := by simpa using hm
  refine ⟨by simp [addMemberToChatroom, hr], ?_, ?_⟩
  · exact getChatroom_putChatroom_of_id rooms
      { r with memberIds := r.memberIds ++ [userId] } roomId hid
  · simp [joinChatroom, hu, hr2, hm']

/-- **C7, witness.** The amended theorem applied to `c7State`: adding
the fresh user `u2` at store level appends it, and `JoinChatroom` for
the existing member `u1` is rejected with `AlreadyExists`. -/
theorem addMember_appends_join_rejects_duplicate_witness :
    (getChatroom [room1] "r1" = some room1) ∧
    (lookupUser c7State "u1" = some "alice") ∧
    (getChatroom c7State.chatrooms "r1" = some room1) ∧
    (room1.memberIds.contains "u1" = true) ∧
    (addMemberToChatroom [room1] "r1" "u2"
       = some (putChatroom [room1]
           { room1 with memberIds := room1.memberIds ++ ["u2"] }) ∧
     getChatroom (putChatroom [room1]
         { room1 with memberIds := room1.memberIds ++ ["u2"] }) "r1"
       = some { room1 with memberIds := room1.memberIds ++ ["u2"] } ∧
     joinChatroom c7State "r1" "u1" 5 = (c7State, ChatStatus.alreadyExists)) :=
  ⟨by decide, by decide, by decide, by decide,
   addMember_appends_join_rejects_duplicate [room1] "r1" "u2" room1
     (by decide) c7State "r1" "u1" 5 room1 "alice" (by decide) (by decide)
     (by decide)⟩

/-- **C8, counterexample.** `room1` has creator `c1` and another member
`u1`, yet `LeaveChatroom` by the creator succeeds (status `ok`) and
removes `c1` from the member list — the rejected-leave rule does not
exist in the code. -/
theorem creator_leave_allowed_counterexample :
    room1.creatorId = "c1" ∧ room1.memberIds = ["c1", "u1"] ∧
    (leaveChatroom c7State "r1" "c1" 5).2 = ChatStatus.ok ∧
    Option.map (fun r => r.memberIds)
      (getChatroom (leaveChatroom c7State "r1" "c1" 5).1.chatrooms "r1")
      = some ["u1"] := by
  decide

/-- **C8** (amended): `LeaveChatroom` applies no creator restriction:
for any existing user and room — including the creator of a room that
still has other members — the call succeeds and the store-level remove
filters the user out of `member_ids`, preserving the order of the
remaining members. -/
theorem leaveChatroom_no_creator_guard (st : ChatState)
    (roomId userId : String) (now : Int) (r : Chatroom) (uname : String)
    (hu : lookupUser st userId = some uname)
    (hr : getChatroom st.chatrooms roomId = some r) :
    (leaveChatroom st roomId userId now).2 = ChatStatus.ok ∧
    getChatroom (leaveChatroom st roomId userId now).1.chatrooms roomId
      = some { r with
          memberIds := r.memberIds.filter (fun m => decide (m ≠ userId)) } := by
  have hid := (getChatroom_eq_some _ _ _ hr).2
  constructor
  · simp [leaveChatroom, hu, removeMemberFromChatroom, hr]
  · simp only [leaveChatroom, hu, removeMemberFromChatroom, hr]
    exact getChatroom_putChatroom_of_id st.chatrooms
      { r with memberIds := r.memberIds.filter (fun m => decide (m ≠ userId)) }
      roomId hid

/-- **C8, witness.** The amended theorem applied to the creator `c1` of
`room1` while the other member `u1` is still present. -/
theorem leaveChatroom_no_creator_guard_witness :
    (lookupUser c7State "c1" = some "carol") ∧
    (getChatroom c7State.chatrooms "r1" = some room1) ∧
    ((leaveChatroom c7State "r1" "c1" 5).2 = ChatStatus.ok ∧
     getChatroom (leaveChatroom c7State "r1" "c1" 5).1.chatrooms "r1"
       = some { room1 with
           memberIds := room1.memberIds.filter (fun m => decide (m ≠ "c1")) }) :=
  ⟨by decide, by decide,
   leaveChatroom_no_creator_guard c7State "r1" "c1" 5 room1 "carol"
     (by decide) (by decide)⟩

end Chat

namespace Hub

theorem removeFromRoom_lookup_ne (rooms : List (String × List Nat))
    (roomId r2 : String) (cid : Nat) (h : r2 ≠ roomId) :
    LSP.alookup (removeFromRoom rooms roomId cid) r2
      = LSP.alookup rooms r2 := by
  unfold removeFromRoom
  cases hms : LSP.alookup rooms roomId with
  | none => rfl
  | some ms => exact LSP.alookup_aput_ne _ _ _ _ h

theorem removeFromRoom_lookup_self (rooms : List (String × List Nat))
    (roomId : String) (cid : Nat) (ms : List Nat)
    (h : LSP.alookup rooms roomId = some ms) :
    LSP.alookup (removeFromRoom rooms roomId cid) roomId
      = some (ms.filter (fun x => decide (x ≠ cid))) := by
  unfold removeFromRoom
  rw [h]
  exact LSP.alookup_aput_eq _ _ _

/-- Steps of a room broadcast taken for members other than `cid` do
not touch `cid`'s client record, cannot re-add `cid` to the `clients`
index or to the broadcast room's member list, and leave the other
rooms' entries unchanged. -/
theorem broadcastFold_preserves (roomId msg : String) (l : List Nat)
    (h : HubState) (cid : Nat) (hnotin : cid ∉ l) :
    (LSP.alookup (l.foldl (broadcastStep roomId msg) h).table cid
       = LSP.alookup h.table cid) ∧
    (cid ∉ h.clients → cid ∉ (l.foldl (broadcastStep roomId msg) h).clients) ∧
    (∀ ms, LSP.alookup h.rooms roomId = some ms →
       ∃ ms', LSP.alookup (l.foldl (broadcastStep roomId msg) h).rooms roomId
           = some ms' ∧ (cid ∉ ms → cid ∉ ms')) ∧
    (∀ r2, r2 ≠ roomId →
       LSP.alookup (l.foldl (broadcastStep roomId msg) h).rooms r2
         = LSP.alookup h.rooms r2) := by
  induction l generalizing h with
  | nil => exact ⟨rfl, fun hc => hc, fun ms hms => ⟨ms, hms, fun hn => hn⟩,
      fun r2 _ => rfl⟩
  | cons m l' ih =>
      have hmne : cid ≠ m := fun he => hnotin (he ▸ List.mem_cons_self m l')
      have hnotin' : cid ∉ l' := fun hmem => hnotin (List.mem_cons_of_mem m hmem)
      simp only [List.foldl_cons]
      have hstep :
          (LSP.alookup (broadcastStep roomId msg h m).table cid
             = LSP.alookup h.table cid) ∧
          (cid ∉ h.clients → cid ∉ (broadcastStep roomId msg h m).clients) ∧
          (∀ ms, LSP.alookup h.rooms roomId = some ms →
             ∃ ms', LSP.alookup (broadcastStep roomId msg h m).rooms roomId
                 = some ms' ∧ (cid ∉ ms → cid ∉ ms')) ∧
          (∀ r2, r2 ≠ roomId →
             LSP.alookup (broadcastStep roomId msg h m).rooms r2
               = LSP.alookup h.rooms r2) := by
        unfold broadcastStep
        cases hc : LSP.alookup h.table m with
        | none => exact ⟨rfl, fun hcl => hcl,
            fun ms hms => ⟨ms, hms, fun hn => hn⟩, fun r2 _ => rfl⟩
        | some c =>
            by_cases hq : c.send.length < qClient
            · simp only [hq, if_true]
              exact ⟨LSP.alookup_aput_ne _ _ _ _ hmne, fun hcl => hcl,
                fun ms hms => ⟨ms, hms, fun hn => hn⟩, fun r2 _ => trivial⟩
            · simp only [hq, if_false]
              refine ⟨LSP.alookup_aput_ne _ _ _ _ hmne, ?_, ?_, ?_⟩
              · intro hcl hmem
                exact hcl (List.mem_of_mem_filter hmem)
              · intro ms hms
                refine ⟨ms.filter (fun x => decide (x ≠ m)),
                  removeFromRoom_lookup_self h.rooms roomId m ms hms, ?_⟩
                intro hn hmem
                exact hn (List.mem_of_mem_filter hmem)
              · intro r2 hr2
                exact removeFromRoom_lookup_ne h.rooms roomId r2 m hr2
      obtain ⟨ht, hcl, hrm, hro⟩ := hstep
      obtain ⟨iht, ihcl, ihrm, ihro⟩ := ih (broadcastStep roomId msg h m) hnotin'
      refine ⟨iht.trans ht, fun hc0 => ihcl (hcl hc0), ?_, ?_⟩
      · intro ms hms
        obtain ⟨ms1, hms1, hn1⟩ := hrm ms hms
        obtain ⟨ms2, hms2, hn2⟩ := ihrm ms1 hms1
        exact ⟨ms2, hms2, fun hn => hn2 (hn1 hn)⟩
      · intro r2 hr2
        exact (ihro r2 hr2).trans (hro r2 hr2)

/-- Steps of a global broadcast taken for clients other than `cid` do
not touch `cid`'s record, cannot re-add `cid` to `clients`, and never
touch the room index at all. -/
theorem globalFold_preserves (msg : String) (l : List Nat) (h : HubState)
    (cid : Nat) (hnotin : cid ∉ l) :
    (LSP.alookup (l.foldl (globalStep msg) h).table cid
       = LSP.alookup h.table cid) ∧
    (cid ∉ h.clients → cid ∉ (l.foldl (globalStep msg) h).clients) ∧
    ((l.foldl (globalStep msg) h).rooms = h.rooms) := by
  induction l generalizing h with
  | nil => exact ⟨rfl, fun hc => hc, rfl⟩
  | cons m l' ih =>
      have hmne : cid ≠ m := fun he => hnotin (he ▸ List.mem_cons_self m l')
      have hnotin' : cid ∉ l' := fun hmem => hnotin (List.mem_cons_of_mem m hmem)
      simp only [List.foldl_cons]
      have hstep :
          (LSP.alookup (globalStep msg h m).table cid
             = LSP.alookup h.table cid) ∧
          (cid ∉ h.clients → cid ∉ (globalStep msg h m).clients) ∧
          ((globalStep msg h m).rooms = h.rooms) := by
        unfold globalStep
        cases hc : LSP.alookup h.table m with
        | none => exact ⟨rfl, fun hcl => hcl, rfl⟩
        | some c =>
            by_cases hq : c.send.length < qClient
            · simp only [hq, if_true]
              exact ⟨LSP.alookup_aput_ne _ _ _ _ hmne, fun hcl => hcl, trivial⟩
            · simp only [hq, if_false]
              refine ⟨LSP.alookup_aput_ne _ _ _ _ hmne, ?_, trivial⟩
              intro hcl hmem
              exact hcl (List.mem_of_mem_filter hmem)
      obtain ⟨ht, hcl, hro⟩ := hstep
      obtain ⟨iht, ihcl, ihro⟩ := ih (globalStep msg h m) hnotin'
      exact ⟨iht.trans ht, fun hc0 => ihcl (hcl hc0), ihro.trans hro⟩

/-- The eviction branch of one room-broadcast step, taken for a client
whose queue is full. -/
theorem broadcastStep_evicts (roomId msg : String) (h : HubState)
    (cid : Nat) (c : HClient) (ms : List Nat)
    (hc : LSP.alookup h.table cid = some c)
    (hfull : qClient ≤ c.send.length)
    (hms : LSP.alookup h.rooms roomId = some ms) :
    broadcastStep roomId msg h cid =
      { table := LSP.aput h.table cid { c with closed := true },
        clients := h.clients.filter (fun x => decide (x ≠ cid)),
        rooms := LSP.aput h.rooms roomId
          (ms.filter (fun x => decide (x ≠ cid))) } := by
  have hq : ¬ (c.send.length < qClient) := Nat.not_lt.2 hfull
  simp [broadcastStep, hc, hq, removeFromRoom, hms]

/-- The eviction branch of one global-broadcast step. -/
theorem globalStep_evicts (msg : String) (h : HubState) (cid : Nat)
    (c : HClient) (hc : LSP.alookup h.table cid = some c)
    (hfull : qClient ≤ c.send.length) :
    globalStep msg h cid =
      { table := LSP.aput h.table cid { c with closed := true },
        clients := h.clients.filter (fun x => decide (x ≠ cid)),
        rooms := h.rooms } := by
  have hq : ¬ (c.send.length < qClient) := Nat.not_lt.2 hfull
  simp [globalStep, hc, hq]

end Hub

namespace Hub

set_option maxRecDepth 40000 in
/-- **C9, counterexample.** Client 1 has a full queue (256 payloads)
and belongs to rooms `r1` and `r2`.  Broadcasting to `r1` removes it
from `clients` and from `r1`, but it remains in the index of `r2`; a
global broadcast removes it from `clients` while leaving the room index
entirely unchanged.  So eviction does not remove the client from every
room it belongs to. -/
theorem slow_consumer_partial_removal_counterexample :
    blockedClient.send.length = qClient ∧
    blockedClient.rooms = ["r1", "r2"] ∧
    1 ∉ (broadcastToRoom c9Hub "r1" "m").clients ∧
    LSP.alookup (broadcastToRoom c9Hub "r1" "m").rooms "r1" = some [2] ∧
    LSP.alookup (broadcastToRoom c9Hub "r1" "m").rooms "r2" = some [1] ∧
    1 ∉ (broadcastMessage c9Hub "m").clients ∧
    (broadcastMessage c9Hub "m").rooms = c9Hub.rooms := by
  decide

/-- **C9** (amended): enqueuing the `(Q_CLIENT+1)`-th message to a
blocked client never blocks the publisher — the message is simply not
enqueued and the client's queue is closed — and evicts the client from
the hub's `clients` index; during a room broadcast the client is also
removed from the index of the room being broadcast to, while its
entries in every other room are left untouched, and during a global
broadcast the room index is not touched at all. -/
theorem slow_consumer_eviction (h : HubState) (roomId msg : String)
    (cid : Nat) (c : HClient) (members : List Nat)
    (hms : LSP.alookup h.rooms roomId = some members)
    (hmem : cid ∈ members) (hnd : members.Nodup)
    (hc : LSP.alookup h.table cid = some c)
    (hfull : qClient ≤ c.send.length)
    (g : HubState) (gmsg : String) (gcid : Nat) (gc : HClient)
    (hgc : LSP.alookup g.table gcid = some gc)
    (hgmem : gcid ∈ g.clients) (hgnd : g.clients.Nodup)
    (hgfull : qClient ≤ gc.send.length) :
    (cid ∉ (broadcastToRoom h roomId msg).clients ∧
     (∃ ms', LSP.alookup (broadcastToRoom h roomId msg).rooms roomId
        = some ms' ∧ cid ∉ ms') ∧
     LSP.alookup (broadcastToRoom h roomId msg).table cid
       = some { c with closed := true } ∧
     (∀ r2, r2 ≠ roomId →
        LSP.alookup (broadcastToRoom h roomId msg).rooms r2
          = LSP.alookup h.rooms r2)) ∧
    (gcid ∉ (broadcastMessage g gmsg).clients ∧
     (broadcastMessage g gmsg).rooms = g.rooms ∧
     LSP.alookup (broadcastMessage g gmsg).table gcid
       = some { gc with closed := true }) := by
  constructor
  · -- room broadcast
    obtain ⟨l1, l2, hsplit⟩ := List.append_of_mem hmem
    have hbr : broadcastToRoom h roomId msg
        = l2.foldl (broadcastStep roomId msg)
            (broadcastStep roomId msg
              (l1.foldl (broadcastStep roomId msg) h) cid) := by
      simp [broadcastToRoom, hms, hsplit]
    rw [hsplit] at hnd
    have hnl1 : cid ∉ l1 := by
      rcases List.nodup_append.1 hnd with ⟨_, _, hdisj⟩
      intro hin
      exact hdisj hin (List.mem_cons_self cid l2)
    have hnl2 : cid ∉ l2 := by
      rcases List.nodup_append.1 hnd with ⟨_, hnd2, _⟩
      exact (List.nodup_cons.1 hnd2).1
    obtain ⟨p_table, p_clients, p_room, p_other⟩ :=
      broadcastFold_preserves roomId msg l1 h cid hnl1
    obtain ⟨ms1, hms1, _⟩ := p_room members hms
    have hc1 : LSP.alookup (l1.foldl (broadcastStep roomId msg) h).table cid
        = some c := p_table.trans hc
    have hev := broadcastStep_evicts roomId msg
      (l1.foldl (broadcastStep roomId msg) h) cid c ms1 hc1 hfull hms1
    obtain ⟨q_table, q_clients, q_room, q_other⟩ :=
      broadcastFold_preserves roomId msg l2
        (broadcastStep roomId msg (l1.foldl (broadcastStep roomId msg) h) cid)
        cid hnl2
    refine ⟨?_, ?_, ?_, ?_⟩
    · rw [hbr]
      refine q_clients ?_
      rw [hev]
      intro hin
      have := List.of_mem_filter hin
      simp at this
    · rw [hbr]
      have hlook : LSP.alookup (broadcastStep roomId msg
          (l1.foldl (broadcastStep roomId msg) h) cid).rooms roomId
          = some (ms1.filter (fun x => decide (x ≠ cid))) := by
        rw [hev]
        exact LSP.alookup_aput_eq _ _ _
      obtain ⟨ms', hms', hn'⟩ := q_room _ hlook
      refine ⟨ms', hms', hn' ?_⟩
      intro hin
      have := List.of_mem_filter hin
      simp at this
    · rw [hbr, q_table, hev]
      exact LSP.alookup_aput_eq _ _ _
    · intro r2 hr2
      rw [hbr, q_other r2 hr2, hev]
      have : LSP.alookup (LSP.aput (l1.foldl (broadcastStep roomId msg) h).rooms
          roomId (ms1.filter (fun x => decide (x ≠ cid)))) r2
          = LSP.alookup (l1.foldl (broadcastStep roomId msg) h).rooms r2 :=
        LSP.alookup_aput_ne _ _ _ _ hr2
      rw [this]
      exact p_other r2 hr2
  · -- global broadcast
    obtain ⟨l1, l2, hsplit⟩ := List.append_of_mem hgmem
    have hbr : broadcastMessage g gmsg
        = l2.foldl (globalStep gmsg)
            (globalStep gmsg (l1.foldl (globalStep gmsg) g) gcid) := by
      simp [broadcastMessage, hsplit]
    rw [hsplit] at hgnd
    have hnl1 : gcid ∉ l1 := by
      rcases List.nodup_append.1 hgnd with ⟨_, _, hdisj⟩
      intro hin
      exact hdisj hin (List.mem_cons_self gcid l2)
    have hnl2 : gcid ∉ l2 := by
      rcases List.nodup_append.1 hgnd with ⟨_, hnd2, _⟩
      exact (List.nodup_cons.1 hnd2).1
    obtain ⟨p_table, p_clients, p_rooms⟩ :=
      globalFold_preserves gmsg l1 g gcid hnl1
    have hc1 : LSP.alookup (l1.foldl (globalStep gmsg) g).table gcid
        = some gc := p_table.trans hgc
    have hev := globalStep_evicts gmsg (l1.foldl (globalStep gmsg) g) gcid
      gc hc1 hgfull
    obtain ⟨q_table, q_clients, q_rooms⟩ :=
      globalFold_preserves gmsg l2
        (globalStep gmsg (l1.foldl (globalStep gmsg) g) gcid) gcid hnl2
    refine ⟨?_, ?_, ?_⟩
    · rw [hbr]
      refine q_clients ?_
      rw [hev]
      intro hin
      have := List.of_mem_filter hin
      simp at this
    · rw [hbr, q_rooms, hev]
      exact p_rooms
    · rw [hbr, q_table, hev]
      exact LSP.alookup_aput_eq _ _ _

set_option maxRecDepth 40000 in
/-- **C9, witness.** The eviction theorem applied to the concrete hub:
blocked client 1 in rooms `r1` and `r2`, broadcast to `r1`, and a
global broadcast on the same hub. -/
theorem slow_consumer_eviction_witness :
    (LSP.alookup c9Hub.rooms "r1" = some [1, 2]) ∧
    ((1 : Nat) ∈ [1, 2]) ∧
    (LSP.alookup c9Hub.table 1 = some blockedClient) ∧
    (qClient ≤ blockedClient.send.length) ∧
    ((1 : Nat) ∈ c9Hub.clients) ∧
    ((1 ∉ (broadcastToRoom c9Hub "r1" "m").clients ∧
      (∃ ms', LSP.alookup (broadcastToRoom c9Hub "r1" "m").rooms "r1"
         = some ms' ∧ 1 ∉ ms') ∧
      LSP.alookup (broadcastToRoom c9Hub "r1" "m").table 1
        = some { blockedClient with closed := true } ∧
      (∀ r2, r2 ≠ "r1" →
         LSP.alookup (broadcastToRoom c9Hub "r1" "m").rooms r2
           = LSP.alookup c9Hub.rooms r2)) ∧
     (1 ∉ (broadcastMessage c9Hub "m").clients ∧
      (broadcastMessage c9Hub "m").rooms = c9Hub.rooms ∧
      LSP.alookup (broadcastMessage c9Hub "m").table 1
        = some { blockedClient with closed := true })) :=
  ⟨by decide, by decide, by decide, by decide, by decide,
   slow_consumer_eviction c9Hub "r1" "m" 1 blockedClient [1, 2] (by decide)
     (by decide) (by decide) (by decide) (by decide) c9Hub "m" 1
     blockedClient (by decide) (by decide) (by decide) (by decide)⟩

end Hub
